import Mathlib

/-!
Verification of the read-only backup subsystem (the BackupHandler of
src/storage/libradb/src/backup/backup_handler.rs) over a shallow embedding.

The three stores composed by the handler (Transaction Log Store,
Authenticated Ledger Store, Versioned State Store) are external to the
repository sources; they are modelled from the spec at their interface
boundary.  The handler methods themselves are translated directly from the
source file.
-/

namespace LibraBackup

/-- A ledger version: unsigned monotonically increasing integer. -/
abbrev Version := Nat

/-- A 256-bit hash value, modelled as a natural number. -/
abbrev HashValue := Nat

/-- The all-zero hash value, the minimal possible account key. -/
def HashValue.zero : HashValue := 0

/-- A transaction, opaque to the backup subsystem. -/
abbrev Transaction := Nat

/-- A serialized account-state blob, opaque to the backup subsystem. -/
abbrev AccountStateBlob := Nat

/-- A sparse-merkle range-absence proof, opaque to the handler (it is passed
through unchanged from the Versioned State Store). -/
abbrev SparseMerkleRangeProof := Nat

/-- A transaction-info-with-proof value, opaque to the handler. -/
abbrev TransactionInfoWithProof := Nat

/-- The per-version transaction-outcome record: content hash, resulting
state-root hash, event-root hash and gas consumed. -/
structure TransactionInfo where
  transaction_hash : HashValue
  state_root_hash : HashValue
  event_root_hash : HashValue
  gas_used : Nat
deriving DecidableEq

/-- The payload of a ledger checkpoint: epoch, version and accumulator root. -/
structure LedgerInfo where
  epoch : Nat
  version : Version
  transaction_accumulator_hash : HashValue
deriving DecidableEq

/-- A signed ledger checkpoint (ledger-info-with-signatures); the signature
material is opaque here. -/
structure LedgerInfoWithSignatures where
  ledger_info : LedgerInfo
  signatures : Nat
deriving DecidableEq

/-- Error values surfaced by the handler.  The source returns anyhow errors;
the invalid-range error comes from the ensure! in get_transaction_range_proof
(carrying the offending first and last version), every other error is an
opaque value passed through from a store. -/
inductive Err where
  | invalidRange (first last : Version)
  | storeErr (code : Nat)
deriving DecidableEq

/-- An accumulator range proof, modelled by the coverage data the
Authenticated Ledger Store builds it from: the first leaf it covers, the
number of leaves, and the version of the accumulator root it is built
against. -/
structure TransactionAccumulatorRangeProof where
  first_leaf_index : Option Version
  num_leaves : Nat
  root_version : Version
deriving DecidableEq

/-- Modelled from the spec: the Transaction Log Store interface consumed by
the handler.  Its transaction iterator is fallible at construction time and
yields per-item fallible transactions; its behaviour is otherwise
unconstrained here because the store implementation is external to the
sources. -/
structure TransactionStore where
  get_transaction_iter : Version → Nat → Except Err (List (Except Err Transaction))

/-- Modelled from the spec: the Authenticated Ledger Store interface consumed
by the handler (outcome iterator, epoch lookup, canonical latest checkpoint
per epoch, accumulator range proofs, latest outcome record, and the
epoch-ending checkpoint table backing its checkpoint iterator).  The store
implementation is external to the sources. -/
structure LedgerStore where
  get_transaction_info_iter : Version → Nat → Except Err (List (Except Err TransactionInfo))
  get_epoch : Version → Except Err Nat
  get_latest_ledger_info_in_epoch : Nat → Except Err LedgerInfoWithSignatures
  get_transaction_range_proof :
    Option Version → Nat → Version → Except Err TransactionAccumulatorRangeProof
  get_latest_transaction_info : Unit → Except Err (Version × TransactionInfo)
  get_transaction_info_with_proof : Version → Version → Except Err TransactionInfoWithProof
  epoch_ending_checkpoints : Nat → LedgerInfoWithSignatures
  num_epochs : Nat

/-- Modelled from the spec: the EpochEndingLedgerInfoIter produced by the
Authenticated Ledger Store: it yields the canonical checkpoint for each epoch
of the half-open interval from start_epoch to end_epoch in increasing epoch
order, an epoch with no recorded checkpoint surfacing as a per-item error. -/
def LedgerStore.get_epoch_ending_ledger_info_iter (s : LedgerStore)
    (start_epoch end_epoch : Nat) :
    Except Err (List (Except Err LedgerInfoWithSignatures)) :=
  .ok ((List.range' start_epoch (end_epoch - start_epoch)).map (fun ep =>
    if ep < s.num_epochs then .ok (s.epoch_ending_checkpoints ep)
    else .error (.storeErr ep)))

/-- Modelled from the spec: the Versioned State Store interface consumed by
the handler: the leaves of the sparse authenticated tree at each version
(a finite key-to-blob map, listed in unspecified order), and the
range-absence proof generator.  The store implementation is external to the
sources. -/
structure StateStore where
  leaves : Version → List (HashValue × AccountStateBlob)
  get_account_state_range_proof : HashValue → Version → Except Err SparseMerkleRangeProof

/-- The reported cardinality of the sparse tree at a version: the number of
leaves it holds. -/
def StateStore.cardinality (s : StateStore) (version : Version) : Nat :=
  (s.leaves version).length

/-- Modelled from the spec: the JellyfishMerkleIterator over the Versioned
State Store, external to the sources.  Started at a key, it visits the
leaves of the tree at the given version whose key is at least that key, in
increasing key order. -/
def JellyfishMerkleIterator.new (store : StateStore) (version : Version)
    (starting_key : HashValue) :
    Except Err (List (HashValue × AccountStateBlob)) :=
  .ok (List.insertionSort (fun a b => a.1 ≤ b.1)
    ((store.leaves version).filter (fun p => starting_key ≤ p.1)))

/-- The BackupHandler: shared read-only references to the three stores. -/
structure BackupHandler where
  ledger_store : LedgerStore
  transaction_store : TransactionStore
  state_store : StateStore

/-- BackupHandler construction: dependency injection of the three stores. -/
def BackupHandler.new (ledger_store : LedgerStore) (transaction_store : TransactionStore)
    (state_store : StateStore) : BackupHandler :=
  ⟨ledger_store, transaction_store, state_store⟩

/-- The zip_eq combinator of the itertools crate, fully forced: it yields
pairs while both iterators yield, ends cleanly when both end together, and
panics when exactly one of them ends first.  The Bool records whether the
iteration panicked after yielding the listed pairs. -/
def zipEq {α β : Type} : List α → List β → List (α × β) × Bool
  | [], [] => ([], false)
  | a :: as, b :: bs =>
    let r := zipEq as bs
    ((a, b) :: r.1, r.2)
  | _, _ => ([], true)

/-- The per-item combining closure of get_transaction_iter in the source:
Ok((txn_res?, txn_info_res?)), propagating the transaction result error
first. -/
def zipTxnOutcome (p : Except Err Transaction × Except Err TransactionInfo) :
    Except Err (Transaction × TransactionInfo) :=
  match p.1 with
  | .error e => .error e
  | .ok txn =>
    match p.2 with
    | .error e => .error e
    | .ok txn_info => .ok (txn, txn_info)

/-- get_transaction_iter from the source: construct the transaction iterator
and the transaction-info iterator (each construction fallible, propagated
with the question-mark operator), zip them with zip_eq, and map the per-item
combining closure over the pairs.  The result is the fully forced sequence:
the per-item results together with the flag recording whether zip_eq
panicked at the end. -/
def BackupHandler.get_transaction_iter (h : BackupHandler) (start_version : Version)
    (num_transactions : Nat) :
    Except Err (List (Except Err (Transaction × TransactionInfo)) × Bool) :=
  match h.transaction_store.get_transaction_iter start_version num_transactions with
  | .error e => .error e
  | .ok txn_iter =>
    match h.ledger_store.get_transaction_info_iter start_version num_transactions with
    | .error e => .error e
    | .ok txn_info_iter =>
      let zipped := zipEq txn_iter txn_info_iter
      .ok (zipped.1.map zipTxnOutcome, zipped.2)

/-- The store operations get_transaction_range_proof can perform, recorded in
call order so that the untouched-stores part of the invalid-range contract is
visible in the embedding. -/
inductive StoreOp where
  | getEpoch (version : Version)
  | getLatestLedgerInfoInEpoch (epoch : Nat)
  | getTransactionRangeProof (first : Option Version) (count : Nat) (version : Version)
deriving DecidableEq

/-- get_transaction_range_proof from the source: ensure! last at least first
(otherwise the invalid-range error, before any store access), then resolve
the epoch of last_version, fetch that epoch's canonical latest checkpoint,
and build the accumulator range proof for num = last - first + 1 leaves from
first_version against the checkpoint version.  The second component lists
the store operations performed. -/
def BackupHandler.get_transaction_range_proof (h : BackupHandler)
    (first_version last_version : Version) :
    Except Err (TransactionAccumulatorRangeProof × LedgerInfoWithSignatures) × List StoreOp :=
  if last_version ≥ first_version then
    let num_transactions := last_version - first_version + 1
    match h.ledger_store.get_epoch last_version with
    | .error e => (.error e, [.getEpoch last_version])
    | .ok epoch =>
      match h.ledger_store.get_latest_ledger_info_in_epoch epoch with
      | .error e => (.error e, [.getEpoch last_version, .getLatestLedgerInfoInEpoch epoch])
      | .ok ledger_info =>
        match h.ledger_store.get_transaction_range_proof (some first_version)
            num_transactions ledger_info.ledger_info.version with
        | .error e =>
          (.error e,
            [.getEpoch last_version, .getLatestLedgerInfoInEpoch epoch,
              .getTransactionRangeProof (some first_version) num_transactions
                ledger_info.ledger_info.version])
        | .ok accumulator_proof =>
          (.ok (accumulator_proof, ledger_info),
            [.getEpoch last_version, .getLatestLedgerInfoInEpoch epoch,
              .getTransactionRangeProof (some first_version) num_transactions
                ledger_info.ledger_info.version])
  else (.error (.invalidRange first_version last_version), [])

/-- get_account_iter from the source: a JellyfishMerkleIterator over the
state store at the given version, started at the zero hash value, boxed as
an iterator of per-item results. -/
def BackupHandler.get_account_iter (h : BackupHandler) (version : Version) :
    Except Err (List (Except Err (HashValue × AccountStateBlob))) :=
  match JellyfishMerkleIterator.new h.state_store version HashValue.zero with
  | .error e => .error e
  | .ok iterator => .ok (iterator.map (fun p => .ok p))

/-- get_account_state_range_proof from the source: direct delegation to the
state store. -/
def BackupHandler.get_account_state_range_proof (h : BackupHandler)
    (rightmost_key : HashValue) (version : Version) : Except Err SparseMerkleRangeProof :=
  h.state_store.get_account_state_range_proof rightmost_key version

/-- get_latest_state_root from the source: read the latest (version,
transaction-info) record from the ledger store and return the version paired
with the state-root hash of that same record. -/
def BackupHandler.get_latest_state_root (h : BackupHandler) :
    Except Err (Version × HashValue) :=
  match h.ledger_store.get_latest_transaction_info () with
  | .error e => .error e
  | .ok (version, txn_info) => .ok (version, txn_info.state_root_hash)

/-- get_state_root_proof from the source: resolve the epoch of the version,
fetch that epoch's canonical latest checkpoint, and return the
transaction-info-with-proof at the version against the checkpoint version,
paired with the checkpoint. -/
def BackupHandler.get_state_root_proof (h : BackupHandler) (version : Version) :
    Except Err (TransactionInfoWithProof × LedgerInfoWithSignatures) :=
  match h.ledger_store.get_epoch version with
  | .error e => .error e
  | .ok epoch =>
    match h.ledger_store.get_latest_ledger_info_in_epoch epoch with
    | .error e => .error e
    | .ok ledger_info =>
      match h.ledger_store.get_transaction_info_with_proof version
          ledger_info.ledger_info.version with
      | .error e => .error e
      | .ok txn_info => .ok (txn_info, ledger_info)

/-- get_epoch_ending_ledger_info_iter from the source: direct delegation to
the ledger store. -/
def BackupHandler.get_epoch_ending_ledger_info_iter (h : BackupHandler)
    (start_epoch end_epoch : Nat) :
    Except Err (List (Except Err LedgerInfoWithSignatures)) :=
  h.ledger_store.get_epoch_ending_ledger_info_iter start_epoch end_epoch

/-- Modelled from the spec: the account_range_proof operation as the spec
words it, namely delegation to the Versioned State Store range-proof
generator for the same rightmost key and version, with no transformation.
Used as the specification side of the refinement claim about
get_account_state_range_proof. -/
def account_range_proof_spec (h : BackupHandler) (rightmost_key : HashValue)
    (version : Version) : Except Err SparseMerkleRangeProof :=
  h.state_store.get_account_state_range_proof rightmost_key version

/-- The seven operations of the BackupHandler, as one call datatype. -/
inductive HandlerOp where
  | transactionIter (start_version : Version) (num_transactions : Nat)
  | transactionRangeProof (first_version last_version : Version)
  | accountIter (version : Version)
  | accountStateRangeProof (rightmost_key : HashValue) (version : Version)
  | latestStateRoot
  | stateRootProof (version : Version)
  | epochEndingLedgerInfoIter (start_epoch end_epoch : Nat)

/-- The result of a BackupHandler operation. -/
inductive HandlerResult where
  | transactions (r : Except Err (List (Except Err (Transaction × TransactionInfo)) × Bool))
  | rangeProof (r : Except Err (TransactionAccumulatorRangeProof × LedgerInfoWithSignatures))
  | accounts (r : Except Err (List (Except Err (HashValue × AccountStateBlob))))
  | accountProof (r : Except Err SparseMerkleRangeProof)
  | stateRoot (r : Except Err (Version × HashValue))
  | rootProof (r : Except Err (TransactionInfoWithProof × LedgerInfoWithSignatures))
  | checkpoints (r : Except Err (List (Except Err LedgerInfoWithSignatures)))

/-- State-passing form of a BackupHandler call: the operation result paired
with the handler state (the three store states) after the call.  Every
method of the source takes a shared reference and performs only store reads
(the store methods are pure per the spec snapshot-read model), so each
branch returns the handler it was given and a dropped iterator leaves no
state behind. -/
def BackupHandler.runOp (h : BackupHandler) : HandlerOp → HandlerResult × BackupHandler
  | .transactionIter s n => (.transactions (h.get_transaction_iter s n), h)
  | .transactionRangeProof f l => (.rangeProof (h.get_transaction_range_proof f l).1, h)
  | .accountIter v => (.accounts (h.get_account_iter v), h)
  | .accountStateRangeProof k v => (.accountProof (h.get_account_state_range_proof k v), h)
  | .latestStateRoot => (.stateRoot h.get_latest_state_root, h)
  | .stateRootProof v => (.rootProof (h.get_state_root_proof v), h)
  | .epochEndingLedgerInfoIter s e => (.checkpoints (h.get_epoch_ending_ledger_info_iter s e), h)

/-! Concrete store fixtures used by counterexamples and witnesses. -/

/-- A concrete transaction-outcome record for version v. -/
def txnInfoAt (v : Nat) : TransactionInfo :=
  ⟨v, v + 100, v + 200, 1⟩

/-- A concrete well-behaved ledger store: every version is in epoch 0, the
canonical checkpoint of epoch e carries epoch e at version 5, the range-proof
generator records exactly the requested coverage, and the outcome iterator
holds three outcome records. -/
def ledgerStoreA : LedgerStore where
  get_transaction_info_iter := fun _ _ =>
    .ok [.ok (txnInfoAt 0), .ok (txnInfoAt 1), .ok (txnInfoAt 2)]
  get_epoch := fun _ => .ok 0
  get_latest_ledger_info_in_epoch := fun e => .ok ⟨⟨e, 5, 77⟩, 0⟩
  get_transaction_range_proof := fun f c v => .ok ⟨f, c, v⟩
  get_latest_transaction_info := fun _ => .ok (2, txnInfoAt 2)
  get_transaction_info_with_proof := fun _ _ => .ok 0
  epoch_ending_checkpoints := fun e => ⟨⟨e, 5, 77⟩, 0⟩
  num_epochs := 3

/-- A concrete transaction store holding two transactions. -/
def txnStoreA : TransactionStore where
  get_transaction_iter := fun _ _ => .ok [.ok 10, .ok 11]

/-- A concrete transaction store whose iterator construction fails. -/
def txnStoreFail : TransactionStore where
  get_transaction_iter := fun _ _ => .error (.storeErr 7)

/-- A concrete ledger store whose outcome-iterator construction fails. -/
def ledgerStoreFail : LedgerStore where
  get_transaction_info_iter := fun _ _ => .error (.storeErr 8)
  get_epoch := fun _ => .ok 0
  get_latest_ledger_info_in_epoch := fun e => .ok ⟨⟨e, 5, 77⟩, 0⟩
  get_transaction_range_proof := fun f c v => .ok ⟨f, c, v⟩
  get_latest_transaction_info := fun _ => .ok (2, txnInfoAt 2)
  get_transaction_info_with_proof := fun _ _ => .ok 0
  epoch_ending_checkpoints := fun e => ⟨⟨e, 5, 77⟩, 0⟩
  num_epochs := 3

/-- A concrete state store with three accounts at every version. -/
def stateStoreA : StateStore where
  leaves := fun _ => [(5, 50), (2, 20), (9, 90)]
  get_account_state_range_proof := fun k v => .ok (k + v)

/-- A handler whose transaction iterator yields 2 items while its outcome
iterator yields 3: the two stores disagree in length. -/
def handlerC1 : BackupHandler := ⟨ledgerStoreA, txnStoreA, stateStoreA⟩

/-- A well-behaved concrete handler used by several witnesses. -/
def handlerA : BackupHandler := ⟨ledgerStoreA, txnStoreA, stateStoreA⟩

/-- A handler whose transaction-iterator construction fails. -/
def handlerC8a : BackupHandler := ⟨ledgerStoreA, txnStoreFail, stateStoreA⟩

/-- A handler whose outcome-iterator construction fails. -/
def handlerC8b : BackupHandler := ⟨ledgerStoreFail, txnStoreA, stateStoreA⟩

/-- The transaction per-item results of the C9 fixture: an error then an ok. -/
def txnsC9 : List (Except Err Transaction) :=
  [.error (.storeErr 1), .ok 10]

/-- The outcome per-item results of the C9 fixture: an error then an ok. -/
def infosC9 : List (Except Err TransactionInfo) :=
  [.error (.storeErr 2), .ok (txnInfoAt 1)]

/-- The items get_transaction_iter produces on the C9 fixture. -/
def itemsC9 : List (Except Err (Transaction × TransactionInfo)) :=
  [.error (.storeErr 1), .ok (10, txnInfoAt 1)]

/-- A transaction store yielding the C9 per-item results. -/
def txnStoreC9 : TransactionStore where
  get_transaction_iter := fun _ _ => .ok txnsC9

/-- A ledger store yielding the C9 per-item outcome results. -/
def ledgerStoreC9 : LedgerStore where
  get_transaction_info_iter := fun _ _ => .ok infosC9
  get_epoch := fun _ => .ok 0
  get_latest_ledger_info_in_epoch := fun e => .ok ⟨⟨e, 5, 77⟩, 0⟩
  get_transaction_range_proof := fun f c v => .ok ⟨f, c, v⟩
  get_latest_transaction_info := fun _ => .ok (2, txnInfoAt 2)
  get_transaction_info_with_proof := fun _ _ => .ok 0
  epoch_ending_checkpoints := fun e => ⟨⟨e, 5, 77⟩, 0⟩
  num_epochs := 3

/-- The handler over the C9 fixture stores. -/
def handlerC9 : BackupHandler := ⟨ledgerStoreC9, txnStoreC9, stateStoreA⟩

/-- The leaf order relation used by the sparse-tree iterator model: compare
leaves by key. -/
instance : IsTotal (HashValue × AccountStateBlob) (fun a b => a.1 ≤ b.1) :=
  ⟨fun a b => Nat.le_total a.1 b.1⟩

instance : IsTrans (HashValue × AccountStateBlob) (fun a b => a.1 ≤ b.1) :=
  ⟨fun _ _ _ hab hbc => Nat.le_trans hab hbc⟩

/-! Helper lemmas about the zip_eq model. -/

/-- The pairs yielded by zip_eq before any panic are exactly the pointwise
zip of the two lists (their common prefix). -/
theorem zipEq_fst {α β : Type} : ∀ (la : List α) (lb : List β), (zipEq la lb).1 = la.zip lb
  | [], [] => rfl
  | [], _ :: _ => rfl
  | _ :: _, [] => rfl
  | a :: as, b :: bs => by
    show ((a, b) :: (zipEq as bs).1, (zipEq as bs).2).1 = (a, b) :: as.zip bs
    rw [zipEq_fst as bs]

/-- zip_eq panics exactly when the two lists have different lengths. -/
theorem zipEq_snd {α β : Type} :
    ∀ (la : List α) (lb : List β), (zipEq la lb).2 = true ↔ la.length ≠ lb.length
  | [], [] => by simp [zipEq]
  | [], _ :: _ => by simp [zipEq]
  | _ :: _, [] => by simp [zipEq]
  | a :: as, b :: bs => by
    show (zipEq as bs).2 = true ↔ (as.length + 1 ≠ bs.length + 1)
    rw [zipEq_snd as bs]
    omega

/-! Claim C1. -/

/-- Claim C1 counterexample: with a transaction iterator of length 2 and an
outcome iterator of length 3 over the same range, get_transaction_iter
yields the two common items and then the zip_eq panic flag is true: the
iteration terminates the program with a panic at the first point of
mismatch, and no store-inconsistency error value is produced (the error
type of the source has no such value), refuting the claim that the
mismatch surfaces as a recoverable error and never a panic. -/
theorem c1_counterexample :
    handlerC1.get_transaction_iter 0 2 =
      .ok ([.ok (10, txnInfoAt 0), .ok (11, txnInfoAt 1)], true) := rfl

/-- Claim C1 amended: when the transaction iterator and the outcome iterator
disagree in length over the requested range, get_transaction_iter yields the
per-item results of the common prefix and then aborts with a zip_eq panic at
the first point of mismatch; it does not produce a recoverable
store-inconsistency error value. -/
theorem c1_amended_zip_mismatch_panics (h : BackupHandler)
    (start_version num_transactions : Nat)
    (txns : List (Except Err Transaction)) (infos : List (Except Err TransactionInfo))
    (ht : h.transaction_store.get_transaction_iter start_version num_transactions = .ok txns)
    (hi : h.ledger_store.get_transaction_info_iter start_version num_transactions = .ok infos)
    (hne : txns.length ≠ infos.length) :
    h.get_transaction_iter start_version num_transactions =
      .ok ((txns.zip infos).map zipTxnOutcome, true) := by
  simp only [BackupHandler.get_transaction_iter, ht, hi]
  rw [zipEq_fst, (zipEq_snd txns infos).mpr hne]

/-- Claim C1 amended witness: the amended statement at the concrete
mismatching handler. -/
theorem c1_amended_witness :
    handlerC1.get_transaction_iter 0 2 =
      .ok ((([.ok 10, .ok 11] : List (Except Err Transaction)).zip
        [.ok (txnInfoAt 0), .ok (txnInfoAt 1), .ok (txnInfoAt 2)]).map zipTxnOutcome, true) :=
  c1_amended_zip_mismatch_panics handlerC1 0 2
    [.ok 10, .ok 11] [.ok (txnInfoAt 0), .ok (txnInfoAt 1), .ok (txnInfoAt 2)]
    rfl rfl (by decide)

/-! Claim C8. -/

/-- Claim C8: get_transaction_iter is fallible at call time: if the
transaction store fails to construct its iterator the call returns that
error, and if the transaction store succeeds but the ledger store fails to
construct its outcome iterator the call returns that error; in both cases
the call yields an error and not a sequence, so no zipped item is ever
produced. -/
theorem c8_construction_failure_propagates (h : BackupHandler)
    (start_version num_transactions : Nat) (e : Err) :
    (h.transaction_store.get_transaction_iter start_version num_transactions = .error e →
      h.get_transaction_iter start_version num_transactions = .error e) ∧
    (∀ txns,
      h.transaction_store.get_transaction_iter start_version num_transactions = .ok txns →
      h.ledger_store.get_transaction_info_iter start_version num_transactions = .error e →
      h.get_transaction_iter start_version num_transactions = .error e) := by
  constructor
  · intro ht
    simp only [BackupHandler.get_transaction_iter, ht]
  · intro txns ht hi
    simp only [BackupHandler.get_transaction_iter, ht, hi]

/-- Claim C8 witness: both construction-failure paths at concrete handlers. -/
theorem c8_witness :
    handlerC8a.get_transaction_iter 0 3 = .error (.storeErr 7) ∧
    handlerC8b.get_transaction_iter 0 3 = .error (.storeErr 8) :=
  ⟨(c8_construction_failure_propagates handlerC8a 0 3 (.storeErr 7)).1 rfl,
   (c8_construction_failure_propagates handlerC8b 0 3 (.storeErr 8)).2
     [.ok 10, .ok 11] rfl rfl⟩

/-! Claim C9. -/

/-- Claim C9: at each position of the sequence produced by
get_transaction_iter (within the common length of the two underlying
iterators), the yielded item is Ok exactly when both the underlying
transaction item and the underlying outcome item at that position are Ok,
and when both are errors the transaction store error is the one returned. -/
theorem c9_item_ok_iff_both_ok (h : BackupHandler) (start_version num_transactions : Nat)
    (txns : List (Except Err Transaction)) (infos : List (Except Err TransactionInfo))
    (items : List (Except Err (Transaction × TransactionInfo))) (panicked : Bool)
    (ht : h.transaction_store.get_transaction_iter start_version num_transactions = .ok txns)
    (hi : h.ledger_store.get_transaction_info_iter start_version num_transactions = .ok infos)
    (hres : h.get_transaction_iter start_version num_transactions = .ok (items, panicked))
    (i : Nat) (hit : i < txns.length) (hii : i < infos.length) :
    ∃ hlt : i < items.length,
      ((items.get ⟨i, hlt⟩).isOk = true ↔
        ((txns.get ⟨i, hit⟩).isOk = true ∧ (infos.get ⟨i, hii⟩).isOk = true)) ∧
      (∀ e1 e2, txns.get ⟨i, hit⟩ = .error e1 → infos.get ⟨i, hii⟩ = .error e2 →
        items.get ⟨i, hlt⟩ = .error e1) := by
  have hitems : items = (txns.zip infos).map zipTxnOutcome := by
    have hr := hres
    simp only [BackupHandler.get_transaction_iter, ht, hi] at hr
    rw [zipEq_fst] at hr
    injection hr with hpair
    exact (congrArg Prod.fst hpair).symm
  subst hitems
  have hlt : i < ((txns.zip infos).map zipTxnOutcome).length := by
    rw [List.length_map, List.length_zip]
    omega
  refine ⟨hlt, ?_⟩
  have hget : ((txns.zip infos).map zipTxnOutcome).get ⟨i, hlt⟩ =
      zipTxnOutcome (txns.get ⟨i, hit⟩, infos.get ⟨i, hii⟩) := by
    simp [List.get_eq_getElem, List.getElem_map, List.getElem_zip]
  rw [hget]
  constructor
  · cases hx : txns.get ⟨i, hit⟩ <;> cases hy : infos.get ⟨i, hii⟩ <;>
      simp [zipTxnOutcome, Except.isOk, Except.toBool]
  · intro e1 e2 hx hy
    rw [hx, hy]
    rfl

/-- Claim C9 witness: the per-item contract at position 0 of the concrete C9
fixture, where both underlying items are errors and the transaction store
error is the one yielded. -/
theorem c9_witness :
    ∃ hlt : 0 < itemsC9.length,
      ((itemsC9.get ⟨0, hlt⟩).isOk = true ↔
        ((txnsC9.get ⟨0, by decide⟩).isOk = true ∧
          (infosC9.get ⟨0, by decide⟩).isOk = true)) ∧
      (∀ e1 e2, txnsC9.get ⟨0, by decide⟩ = .error e1 →
        infosC9.get ⟨0, by decide⟩ = .error e2 →
        itemsC9.get ⟨0, hlt⟩ = .error e1) :=
  c9_item_ok_iff_both_ok handlerC9 0 2 txnsC9 infosC9 itemsC9 false
    rfl rfl rfl 0 (by decide) (by decide)

/-! Claim C2. -/

/-- Claim C2: for first at most last within the committed range (all store
lookups succeed), get_transaction_range_proof returns the proof paired with
the canonical latest checkpoint of the epoch of last_version; under the
spec invariants of the external ledger store (the canonical checkpoint of
epoch e carries epoch e, and the accumulator range-proof generator builds a
proof covering exactly the requested leaves against the requested root
version), the checkpoint epoch equals the epoch of last_version and the
proof covers exactly last - first + 1 leaves starting at first_version,
built against the checkpoint version. -/
theorem c2_transaction_range_proof_coverage (h : BackupHandler)
    (first_version last_version : Version) (epoch : Nat)
    (li : LedgerInfoWithSignatures) (proof : TransactionAccumulatorRangeProof)
    (hfl : first_version ≤ last_version)
    (hep : h.ledger_store.get_epoch last_version = .ok epoch)
    (hcanon : ∀ e l, h.ledger_store.get_latest_ledger_info_in_epoch e = .ok l →
      l.ledger_info.epoch = e)
    (hli : h.ledger_store.get_latest_ledger_info_in_epoch epoch = .ok li)
    (hacc : ∀ f c v p, h.ledger_store.get_transaction_range_proof f c v = .ok p →
      p.first_leaf_index = f ∧ p.num_leaves = c ∧ p.root_version = v)
    (hpr : h.ledger_store.get_transaction_range_proof (some first_version)
      (last_version - first_version + 1) li.ledger_info.version = .ok proof) :
    (h.get_transaction_range_proof first_version last_version).1 = .ok (proof, li) ∧
    li.ledger_info.epoch = epoch ∧
    proof.first_leaf_index = some first_version ∧
    proof.num_leaves = last_version - first_version + 1 ∧
    proof.root_version = li.ledger_info.version := by
  refine ⟨?_, hcanon _ _ hli, (hacc _ _ _ _ hpr).1, (hacc _ _ _ _ hpr).2.1,
    (hacc _ _ _ _ hpr).2.2⟩
  simp only [BackupHandler.get_transaction_range_proof, ge_iff_le, hfl, if_true, hep, hli, hpr]

/-- Claim C2 witness: the range [2, 4] on the concrete handler, whose epoch
lookup gives 0, whose canonical checkpoint of epoch 0 sits at version 5,
and whose proof generator records the requested coverage. -/
theorem c2_witness :
    (handlerA.get_transaction_range_proof 2 4).1 =
      .ok (⟨some 2, 3, 5⟩, ⟨⟨0, 5, 77⟩, 0⟩) ∧
    (⟨⟨0, 5, 77⟩, 0⟩ : LedgerInfoWithSignatures).ledger_info.epoch = 0 ∧
    (⟨some 2, 3, 5⟩ : TransactionAccumulatorRangeProof).first_leaf_index = some 2 ∧
    (⟨some 2, 3, 5⟩ : TransactionAccumulatorRangeProof).num_leaves = 4 - 2 + 1 ∧
    (⟨some 2, 3, 5⟩ : TransactionAccumulatorRangeProof).root_version =
      (⟨⟨0, 5, 77⟩, 0⟩ : LedgerInfoWithSignatures).ledger_info.version :=
  c2_transaction_range_proof_coverage handlerA 2 4 0 ⟨⟨0, 5, 77⟩, 0⟩ ⟨some 2, 3, 5⟩
    (by decide) rfl
    (by intro e l hl; injection hl with h2; subst h2; rfl) rfl
    (by intro f c v p hp; injection hp with h2; subst h2; exact ⟨rfl, rfl, rfl⟩) rfl

/-! Claim C3. -/

/-- Claim C3: whenever last_version is strictly below first_version,
get_transaction_range_proof returns the invalid-range error (a value, not a
panic) and performs no store operation at all: the recorded trace of store
calls is empty, and the result does not depend on the stores. -/
theorem c3_invalid_range_no_store_touched (h : BackupHandler)
    (first_version last_version : Version) (hlt : last_version < first_version) :
    h.get_transaction_range_proof first_version last_version =
      (.error (.invalidRange first_version last_version), []) := by
  have hn : ¬ first_version ≤ last_version := Nat.not_le.mpr hlt
  simp [BackupHandler.get_transaction_range_proof, hn]

/-- Claim C3 witness: the spec scenario of requesting the range [5, 2]. -/
theorem c3_witness :
    handlerA.get_transaction_range_proof 5 2 = (.error (.invalidRange 5 2), []) :=
  c3_invalid_range_no_store_touched handlerA 5 2 (by decide)

/-! Claim C4. -/

/-- Claim C4: for start_epoch at most end_epoch, with every epoch of the
interval recorded in the store and the store invariant that the canonical
checkpoint of epoch e carries epoch e, get_epoch_ending_ledger_info_iter
yields exactly one checkpoint per epoch, whose epoch values are exactly the
consecutive integers of the half-open interval from start_epoch to
end_epoch, in increasing order. -/
theorem c4_epoch_checkpoint_iter_consecutive (h : BackupHandler)
    (start_epoch end_epoch : Nat)
    (hse : start_epoch ≤ end_epoch)
    (hee : end_epoch ≤ h.ledger_store.num_epochs)
    (hcanon : ∀ e, e < h.ledger_store.num_epochs →
      (h.ledger_store.epoch_ending_checkpoints e).ledger_info.epoch = e) :
    ∃ cps : List LedgerInfoWithSignatures,
      h.get_epoch_ending_ledger_info_iter start_epoch end_epoch =
        .ok (cps.map (fun c => .ok c)) ∧
      cps.map (fun c => c.ledger_info.epoch) =
        List.range' start_epoch (end_epoch - start_epoch) ∧
      cps.length = end_epoch - start_epoch := by
  refine ⟨(List.range' start_epoch (end_epoch - start_epoch)).map
    h.ledger_store.epoch_ending_checkpoints, ?_, ?_, ?_⟩
  · simp only [BackupHandler.get_epoch_ending_ledger_info_iter,
      LedgerStore.get_epoch_ending_ledger_info_iter, List.map_map]
    congr 1
    apply List.map_congr_left
    intro ep hep
    have hm := List.mem_range'_1.mp hep
    have hlt : ep < h.ledger_store.num_epochs := by omega
    simp [hlt]
  · rw [List.map_map]
    have hid : ∀ ep ∈ List.range' start_epoch (end_epoch - start_epoch),
        ((fun c => c.ledger_info.epoch) ∘ h.ledger_store.epoch_ending_checkpoints) ep =
          id ep := by
      intro ep hep
      have hm := List.mem_range'_1.mp hep
      exact hcanon ep (by omega)
    rw [List.map_congr_left hid, List.map_id]
  · rw [List.length_map, List.length_range']

/-- Claim C4 witness: epochs [1, 3) on the concrete handler with three
recorded epochs. -/
theorem c4_witness :
    ∃ cps : List LedgerInfoWithSignatures,
      handlerA.get_epoch_ending_ledger_info_iter 1 3 = .ok (cps.map (fun c => .ok c)) ∧
      cps.map (fun c => c.ledger_info.epoch) = List.range' 1 (3 - 1) ∧
      cps.length = 3 - 1 :=
  c4_epoch_checkpoint_iter_consecutive handlerA 1 3 (by decide) (by decide)
    (fun _ _ => rfl)

/-! Claim C5 helper lemmas. -/

/-- The sorted leaves carry keys that are pairwise distinct whenever the
tree leaves do: sorting is a permutation. -/
theorem c5_keys_nodup (h : BackupHandler) (version : Version)
    (hnd : ((h.state_store.leaves version).map Prod.fst).Nodup) :
    ((List.insertionSort (fun a b => a.1 ≤ b.1)
      (h.state_store.leaves version)).map Prod.fst).Nodup := by
  have hperm : List.Perm
      (List.insertionSort (fun a b => a.1 ≤ b.1) (h.state_store.leaves version))
      (h.state_store.leaves version) :=
    List.perm_insertionSort _ _
  exact ((hperm.map Prod.fst).nodup_iff).mpr hnd

/-- The keys of the sorted leaves are strictly increasing: sortedness gives
the weak order, distinctness upgrades it to the strict one. -/
theorem c5_sorted_strict (h : BackupHandler) (version : Version)
    (hnd : ((h.state_store.leaves version).map Prod.fst).Nodup) :
    ((List.insertionSort (fun a b => a.1 ≤ b.1)
      (h.state_store.leaves version)).map Prod.fst).Sorted (· < ·) := by
  have hs : (List.insertionSort (fun a b => a.1 ≤ b.1)
      (h.state_store.leaves version)).Sorted (fun a b => a.1 ≤ b.1) :=
    List.sorted_insertionSort _ _
  have hle : ((List.insertionSort (fun a b => a.1 ≤ b.1)
      (h.state_store.leaves version)).map Prod.fst).Pairwise (· ≤ ·) :=
    List.pairwise_map.mpr hs
  have hne : ((List.insertionSort (fun a b => a.1 ≤ b.1)
      (h.state_store.leaves version)).map Prod.fst).Pairwise (· ≠ ·) :=
    c5_keys_nodup h version hnd
  exact (hle.and hne).imp (fun hab => lt_of_le_of_ne hab.1 hab.2)

/-- In a list of naturals sorted by the weak order, the first element is at
most every element. -/
theorem sorted_head_le {l : List Nat} (hl : l.Pairwise (· ≤ ·)) :
    ∀ q ∈ l.head?, ∀ k ∈ l, q ≤ k := by
  cases l with
  | nil =>
    intro q hq
    simp at hq
  | cons a t =>
    intro q hq k hk
    have hqa : a = q := by simpa using hq
    subst hqa
    rcases List.mem_cons.mp hk with rfl | hkt
    · exact Nat.le_refl _
    · exact (List.pairwise_cons.mp hl).1 k hkt

/-- The first key of the sorted leaves is at most every key of the tree. -/
theorem c5_head_minimal (h : BackupHandler) (version : Version) :
    ∀ q ∈ ((List.insertionSort (fun a b => a.1 ≤ b.1)
        (h.state_store.leaves version)).map Prod.fst).head?,
      ∀ k ∈ (h.state_store.leaves version).map Prod.fst, q ≤ k := by
  intro q hq k hk
  have hperm : List.Perm
      (List.insertionSort (fun a b => a.1 ≤ b.1) (h.state_store.leaves version))
      (h.state_store.leaves version) :=
    List.perm_insertionSort _ _
  have hkmem : k ∈ (List.insertionSort (fun a b => a.1 ≤ b.1)
      (h.state_store.leaves version)).map Prod.fst :=
    ((hperm.map Prod.fst).mem_iff).mpr hk
  have hle : ((List.insertionSort (fun a b => a.1 ≤ b.1)
      (h.state_store.leaves version)).map Prod.fst).Pairwise (· ≤ ·) :=
    List.pairwise_map.mpr (List.sorted_insertionSort _ _)
  exact sorted_head_le hle q hq k hkmem

/-! Claim C5. -/

/-- Claim C5: under the sparse-tree map invariant that the leaves at the
version carry pairwise distinct keys, get_account_iter yields every leaf
exactly once, with strictly increasing and therefore non-duplicated keys,
its first key at most every key present in the tree (it starts from the
minimal key), and the item count equal to the reported tree cardinality at
that version. -/
theorem c5_account_iter_sorted_complete (h : BackupHandler) (version : Version)
    (hnd : ((h.state_store.leaves version).map Prod.fst).Nodup) :
    ∃ accounts : List (HashValue × AccountStateBlob),
      h.get_account_iter version = .ok (accounts.map (fun p => .ok p)) ∧
      (accounts.map Prod.fst).Sorted (· < ·) ∧
      (accounts.map Prod.fst).Nodup ∧
      (∀ q ∈ (accounts.map Prod.fst).head?,
        ∀ k ∈ (h.state_store.leaves version).map Prod.fst, q ≤ k) ∧
      accounts.length = h.state_store.cardinality version := by
  have hfilter : (h.state_store.leaves version).filter
      (fun p => decide (HashValue.zero ≤ p.1)) = h.state_store.leaves version := by
    apply List.filter_eq_self.mpr
    intro a _
    simp [HashValue.zero]
  refine ⟨List.insertionSort (fun a b => a.1 ≤ b.1) (h.state_store.leaves version),
    ?_, ?_, ?_, ?_, ?_⟩
  case _ =>
    simp only [BackupHandler.get_account_iter, JellyfishMerkleIterator.new, hfilter]
  case _ => exact c5_sorted_strict h version hnd
  case _ => exact c5_keys_nodup h version hnd
  case _ => exact c5_head_minimal h version
  case _ =>
    rw [List.length_insertionSort]
    rfl

/-- Claim C5 witness: the concrete state store has leaves with keys 5, 2, 9
(pairwise distinct) at every version. -/
theorem c5_witness :
    ∃ accounts : List (HashValue × AccountStateBlob),
      handlerA.get_account_iter 0 = .ok (accounts.map (fun p => .ok p)) ∧
      (accounts.map Prod.fst).Sorted (· < ·) ∧
      (accounts.map Prod.fst).Nodup ∧
      (∀ q ∈ (accounts.map Prod.fst).head?,
        ∀ k ∈ (handlerA.state_store.leaves 0).map Prod.fst, q ≤ k) ∧
      accounts.length = handlerA.state_store.cardinality 0 :=
  c5_account_iter_sorted_complete handlerA 0 (by decide)

/-! Claim C6. -/

/-- Claim C6: every BackupHandler operation is a pure read: in the
state-passing form of a call, the handler state (the three store states)
after any of the seven operations equals the state before, on the success
and on the error path alike, so there is never in-flight state to roll back
when a returned iterator is dropped. -/
theorem c6_all_operations_pure_reads (h : BackupHandler) (op : HandlerOp) :
    (h.runOp op).2 = h := by
  cases op <;> rfl

/-! Claim C7. -/

/-- Claim C7: get_latest_state_root returns the version of the latest
committed outcome record together with the state-root hash extracted from
that very same record: whenever the ledger store reports the latest record
as a (version, transaction-info) pair, the result pairs that version with
the state-root-hash field of that transaction-info. -/
theorem c7_latest_state_root_single_record (h : BackupHandler) (version : Version)
    (txn_info : TransactionInfo)
    (hl : h.ledger_store.get_latest_transaction_info () = .ok (version, txn_info)) :
    h.get_latest_state_root = .ok (version, txn_info.state_root_hash) := by
  simp only [BackupHandler.get_latest_state_root, hl]

/-- Claim C7 witness: the concrete ledger store reports the latest record at
version 2. -/
theorem c7_witness :
    handlerA.get_latest_state_root = .ok (2, (txnInfoAt 2).state_root_hash) :=
  c7_latest_state_root_single_record handlerA 2 (txnInfoAt 2) rfl

/-! Claim C10. -/

/-- Claim C10: get_account_state_range_proof is a pure pass-through: for
every rightmost key and version it returns exactly the result of the
Versioned State Store range-proof generator at the same arguments (the
specification-side definition), on the success and on the error path alike,
with no transformation or added failure case. -/
theorem c10_account_range_proof_passthrough (h : BackupHandler)
    (rightmost_key : HashValue) (version : Version) :
    h.get_account_state_range_proof rightmost_key version =
      account_range_proof_spec h rightmost_key version ∧
    h.get_account_state_range_proof rightmost_key version =
      h.state_store.get_account_state_range_proof rightmost_key version :=
  ⟨rfl, rfl⟩

end LibraBackup
